import Mathlib

/-!
Shallow embedding of the `financial_RAG_chatbot` crawler's document-processing
pipeline, translated from the Python sources:

* `src/crawler/service/pdf_service.py` — PDF split, per-page GPT processing,
  fan-out coordinator `process_pdf_with_gpt`, result integration;
* `src/crawler/utils/document_processor.py` — `combine_page_results`;
* `src/crawler/api/routers/pdf_router.py` — the inline page-result merge in
  `download_and_store_pdf`;
* `src/crawler/service/mongodb_service.py` — `_get_collection`,
  `save_processed_document`, `cleanup_duplicate_documents`;
* `src/crawler/service/langchain_embedding_service.py` —
  `create_langchain_documents`, `add_chunk_numbers`, `embed_and_store_document`,
  `hybrid_search`.

External collaborators (the OpenAI completion call, the JSON parser, the
LangChain text splitter, MongoDB and Qdrant) are modelled as explicit
function/state parameters; machine timestamps are `Nat`, search scores are `ℚ`.
The `asyncio.gather(..., return_exceptions=True)` fan-out is modelled by a
per-page `Except` outcome list: every page contributes exactly one entry,
success or failure, independently of the other pages.
-/

namespace Crawler

/-- Decidable equality for `Except`, so that concrete per-page outcomes can
be evaluated by `decide` in witnesses. -/
instance {ε α : Type} [DecidableEq ε] [DecidableEq α] : DecidableEq (Except ε α) := fun a b =>
  match a, b with
  | .ok x, .ok y =>
    if h : x = y then isTrue (by rw [h]) else isFalse (fun c => by cases c; exact h rfl)
  | .error x, .error y =>
    if h : x = y then isTrue (by rw [h]) else isFalse (fun c => by cases c; exact h rfl)
  | .ok _, .error _ => isFalse (fun c => by cases c)
  | .error _, .ok _ => isFalse (fun c => by cases c)

/-- One extracted PDF page, as produced by
`PDFDownloadService.split_pdf_by_pages`. -/
structure RawPage where
  page_number : Nat
  text : String
  char_count : Nat
  word_count : Nat
deriving Repr, DecidableEq

/-- Python `len(text.split())`: the number of maximal non-whitespace runs,
counted by a character fold (the state is the count so far and whether the
scan is inside a word). -/
def pyWordCount (s : String) : Nat :=
  (s.data.foldl (fun st c =>
      if c.isWhitespace then (st.1, false)
      else (if st.2 then st.1 else st.1 + 1, true)) ((0 : Nat), false)).1

/-- `split_pdf_by_pages`: page `i` (0-based) gets `page_number = i + 1`,
its text, character count and word count. -/
def split_pdf_by_pages (pageTexts : List String) : List RawPage :=
  pageTexts.enum.map (fun it =>
    { page_number := it.1 + 1
      text := it.2
      char_count := it.2.length
      word_count := pyWordCount it.2 })

/-- A Python value produced by `json.loads` (or the raw-response fallback
dict): a dict — of which the pipeline reads the optional keys
`raw_response`, `keywords`, `summary`, `category` — a plain string, or any
other value.  `asString` is the Python `str(...)` rendering used when the
value is neither a string nor a dict carrying `raw_response`. -/
inductive GptResponse where
  | jdict (raw_response : Option String) (keywords : Option (List String))
      (summary : Option String) (category : Option String) (asString : String)
  | jstr (s : String)
  | jother (asString : String)
deriving Repr, DecidableEq

/-- A successful per-page result, as built by
`PDFDownloadService._process_page_with_gpt`. -/
structure PageResult where
  page_number : Nat
  char_count : Nat
  word_count : Nat
  gpt_response : GptResponse
  processing_time : Nat
deriving Repr, DecidableEq

/-- `_process_page_with_gpt`: send the system prompt and the page text to the
completion call (`complete`, fallible), then try to parse the response as JSON
(`parseJson`; `none` models a `JSONDecodeError`), falling back to the
one-key dict holding `result_text` under `raw_response`; any exception from
the call propagates as the page's failure. -/
def process_page_with_gpt (complete : String → String → Except String String)
    (parseJson : String → Option GptResponse) (prompt : String) (now : Nat)
    (page : RawPage) : Except String PageResult :=
  match complete prompt ("페이지 " ++ toString page.page_number ++ " 내용:\n\n" ++ page.text) with
  | .error e => .error e
  | .ok result_text =>
    let parsed_result : GptResponse :=
      match parseJson result_text with
      | some v => v
      | none => .jdict (some result_text) none none none result_text
    .ok { page_number := page.page_number
          char_count := page.char_count
          word_count := page.word_count
          gpt_response := parsed_result
          processing_time := now }

/-- The aggregate built by `_integrate_page_results` over successful pages. -/
structure IntegratedResult where
  total_pages_processed : Nat
  combined_keywords : List String
  combined_summary : String
  page_summaries : List (Nat × String)
  categories : List String
deriving Repr, DecidableEq

/-- Either the integrated aggregate, or the error dict returned when there is
no successful page. -/
inductive IntegratedSummary where
  | err (msg : String)
  | ok (r : IntegratedResult)
deriving Repr, DecidableEq

/-- Ordered union used to model Python `set.update` / `set.add`, keeping the
first occurrence of each element.  (Python's set iteration order is
hash-dependent; the claims never inspect it, so it is modelled as
first-occurrence order.) -/
def addNewElems (acc : List String) (xs : List String) : List String :=
  xs.foldl (fun a x => if x ∈ a then a else a ++ [x]) acc

/-- `_integrate_page_results`: an error dict on an empty input; otherwise
scan every successful page's dict for `keywords` / `summary` / `category`. -/
def integrate_page_results (page_results : List PageResult) : IntegratedSummary :=
  if page_results = [] then .err "처리된 페이지가 없습니다"
  else
    let step := fun (acc : IntegratedResult) (result : PageResult) =>
      let acc :=
        match result.gpt_response with
        | .jdict _ (some kws) _ _ _ =>
          { acc with combined_keywords := addNewElems acc.combined_keywords kws }
        | _ => acc
      let acc :=
        match result.gpt_response with
        | .jdict _ _ (some s) _ _ =>
          { acc with page_summaries := acc.page_summaries ++ [(result.page_number, s)] }
        | _ => acc
      match result.gpt_response with
      | .jdict _ _ _ (some c) _ =>
        if c ∈ acc.categories then acc
        else { acc with categories := acc.categories ++ [c] }
      | _ => acc
    let base : IntegratedResult :=
      { total_pages_processed := page_results.length
        combined_keywords := []
        combined_summary := ""
        page_summaries := []
        categories := [] }
    let integrated := page_results.foldl step base
    .ok { integrated with
          combined_summary :=
            " ".intercalate (integrated.page_summaries.map (fun ps => ps.2)) }

/-- The dict returned by `process_pdf_with_gpt`. -/
structure ProcessingResult where
  total_pages : Nat
  successful_pages : Nat
  failed_pages : List Nat
  page_results : List PageResult
  integrated_summary : IntegratedSummary
deriving Repr, DecidableEq

/-- The `for i, result in enumerate(page_results)` partition of the gathered
outcomes: successes keep their order, a failure at 0-based index `i` records
page number `i + 1`.  `i` is the index of the first listed outcome. -/
def partitionPageResults :
    List (Except String PageResult) → Nat → List PageResult × List Nat
  | [], _ => ([], [])
  | .ok r :: rest, i =>
    let p := partitionPageResults rest (i + 1)
    (r :: p.1, p.2)
  | .error _ :: rest, i =>
    let p := partitionPageResults rest (i + 1)
    (p.1, (i + 1) :: p.2)

/-- `process_pdf_with_gpt`, the fan-out coordinator: one
`_process_page_with_gpt` task per page, gathered with
`return_exceptions=True` (modelled as the per-page outcome list — every page
settles, no cancellation), then partitioned into successes and failed page
numbers. -/
def process_pdf_with_gpt (complete : String → String → Except String String)
    (parseJson : String → Option GptResponse) (prompt : String) (now : Nat)
    (pages : List RawPage) : ProcessingResult :=
  let page_results :=
    pages.map (process_page_with_gpt complete parseJson prompt now)
  let p := partitionPageResults page_results 0
  { total_pages := pages.length
    successful_pages := p.1.length
    failed_pages := p.2
    page_results := p.1
    integrated_summary := integrate_page_results p.1 }

/-- `combine_page_results` (`src/crawler/utils/document_processor.py`):
for each page result emit `## 페이지 {n}` followed by the page's content
(`raw_response` if present, else the plain string, else `str(...)`),
and join the sections with a newline. -/
def combine_page_results (page_results : List PageResult) : String :=
  let combined_markdown := page_results.foldl (fun acc page_result =>
    let content :=
      match page_result.gpt_response with
      | .jdict (some raw) _ _ _ _ => raw
      | .jdict none _ _ _ s => s
      | .jstr s => s
      | .jother s => s
    acc ++ ["## 페이지 " ++ toString page_result.page_number ++ "\n\n" ++ content ++ "\n\n"]) []
  "\n".intercalate combined_markdown

/-- The inline page-result merge in `download_and_store_pdf`
(`src/crawler/api/routers/pdf_router.py`, lines 56–77), embedded separately
from `combine_page_results` so that their agreement is a theorem, not a
definition. -/
def routerCombinedMarkdown (page_results : List PageResult) : String :=
  let combined_markdown := page_results.foldl (fun acc page_result =>
    let content :=
      match page_result.gpt_response with
      | .jdict (some raw) _ _ _ _ => raw
      | .jdict none _ _ _ s => s
      | .jstr s => s
      | .jother s => s
    acc ++ ["## 페이지 " ++ toString page_result.page_number ++ "\n\n" ++ content ++ "\n\n"]) []
  "\n".intercalate combined_markdown

/-- The content-selection rule shared by both merge call sites, as a named
function (used only to state theorems about the merge output). -/
def contentOf : GptResponse → String
  | .jdict (some raw) _ _ _ _ => raw
  | .jdict none _ _ _ s => s
  | .jstr s => s
  | .jother s => s

/-- The Markdown section emitted for one page result. -/
def pageSection (pr : PageResult) : String :=
  "## 페이지 " ++ toString pr.page_number ++ "\n\n" ++ contentOf pr.gpt_response ++ "\n\n"

/-! ### Document store (`src/crawler/service/mongodb_service.py`)

The `pdf_documents` collection is a list of documents; `_id` is `id : Nat`
(MongoDB guarantees its uniqueness, which theorems take as a hypothesis
where they need it), `datetime.now()` values are `Nat` instants passed in by
the caller of each operation. -/

/-- A document of the `pdf_documents` collection as written by
`save_processed_document`.  `success_yn` is carried because
`embed_and_store_document` reads it; no writer in the repository sets it,
so it stays `none` on insert and is untouched by the upsert's `$set`. -/
structure StoredDoc where
  id : Nat
  stock_code : Option String
  filename : String
  original_url : Option String
  file_size : Nat
  content_type : String
  download_time : Nat
  parsed_content : String
  total_pages : Nat
  successful_pages : Nat
  failed_pages : List Nat
  status : String
  success_yn : Option String
  created_at : Nat
  updated_at : Nat
deriving Repr, DecidableEq

/-- The `pdf_metadata` argument of `save_processed_document`; each field is
optional because the code reads it with `.get(...)` and a default. -/
structure PdfMetadata where
  filename : Option String
  original_url : Option String
  file_size : Option Nat
  content_type : Option String
  download_time : Option Nat
deriving Repr, DecidableEq

/-- The fields listed in the upsert's `$set` document (everything except
`_id`, `created_at` and `success_yn`). -/
structure DocSetFields where
  stock_code : String
  filename : String
  original_url : Option String
  file_size : Nat
  content_type : String
  download_time : Nat
  parsed_content : String
  total_pages : Nat
  successful_pages : Nat
  failed_pages : List Nat
  status : String
  updated_at : Nat
deriving Repr, DecidableEq

/-- MongoDB `$set` applied to an existing document: overwrite the listed
fields, keep `_id`, `created_at` and `success_yn`. -/
def applySet (d : StoredDoc) (s : DocSetFields) : StoredDoc :=
  { d with
    stock_code := some s.stock_code
    filename := s.filename
    original_url := s.original_url
    file_size := s.file_size
    content_type := s.content_type
    download_time := s.download_time
    parsed_content := s.parsed_content
    total_pages := s.total_pages
    successful_pages := s.successful_pages
    failed_pages := s.failed_pages
    status := s.status
    updated_at := s.updated_at }

/-- The document inserted by an upsert that matched nothing:
`$set` fields plus `$setOnInsert` (`created_at := created`) and a fresh id. -/
def insertFromSet (freshId : Nat) (s : DocSetFields) (created : Nat) : StoredDoc :=
  { id := freshId
    stock_code := some s.stock_code
    filename := s.filename
    original_url := s.original_url
    file_size := s.file_size
    content_type := s.content_type
    download_time := s.download_time
    parsed_content := s.parsed_content
    total_pages := s.total_pages
    successful_pages := s.successful_pages
    failed_pages := s.failed_pages
    status := s.status
    success_yn := none
    created_at := created
    updated_at := s.updated_at }

/-- `update_one(filter, update)` without upsert: apply `$set` to the first
document matching `stock_code`, report whether one matched. -/
def updateFirstMatching (coll : List StoredDoc) (sc : String) (s : DocSetFields) :
    List StoredDoc × Bool :=
  match coll with
  | [] => ([], false)
  | d :: ds =>
    if d.stock_code = some sc then (applySet d s :: ds, true)
    else
      let p := updateFirstMatching ds sc s
      (d :: p.1, p.2)

/-- `update_one(filter, update, upsert=True)`: update the first match, or
insert a new document built from `$set` and `$setOnInsert`; the second
component is `result.upserted_id`. -/
def updateOneUpsert (coll : List StoredDoc) (sc : String) (s : DocSetFields)
    (created freshId : Nat) : List StoredDoc × Option Nat :=
  let p := updateFirstMatching coll sc s
  if p.2 then (p.1, none) else (coll ++ [insertFromSet freshId s created], some freshId)

/-- `MongoDBService.save_processed_document`.  `conn = none` models
`_get_collection` having caught a connection failure and returned `None`
(the method then logs a warning and returns the sentinel string
`"mock_document_id"` without touching any store).  Otherwise the canonical
document is built — `parsed_content` through `combine_page_results` — and
upserted by `stock_code`; the returned string is the upserted id, or the id
of the already-existing document that was updated. -/
def save_processed_document (conn : Option (List StoredDoc)) (freshId now : Nat)
    (stock_code : String) (gpt_result : ProcessingResult)
    (pdf_metadata : PdfMetadata) : Option (List StoredDoc) × String :=
  match conn with
  | none => (none, "mock_document_id")
  | some coll =>
    let combined_markdown := combine_page_results gpt_result.page_results
    let document : DocSetFields :=
      { stock_code := stock_code
        filename := pdf_metadata.filename.getD (stock_code ++ "_report.pdf")
        original_url := pdf_metadata.original_url
        file_size := pdf_metadata.file_size.getD 0
        content_type := pdf_metadata.content_type.getD "application/pdf"
        download_time := pdf_metadata.download_time.getD now
        parsed_content := combined_markdown
        total_pages := gpt_result.total_pages
        successful_pages := gpt_result.successful_pages
        failed_pages := gpt_result.failed_pages
        status := "completed"
        updated_at := now }
    let r := updateOneUpsert coll stock_code document now freshId
    match r.2 with
    | some uid => (some r.1, toString uid)
    | none =>
      match r.1.find? (fun d => d.stock_code = some stock_code) with
      | some d => (some r.1, toString d.id)
      | none => (some r.1, "")

/-- Stable insertion (descending by `updated_at`): a later-processed document
goes after every already-placed document whose key is not strictly smaller,
matching Python's stable `list.sort(key=..., reverse=True)`. -/
def insertUpdatedDesc (d : StoredDoc) : List StoredDoc → List StoredDoc
  | [] => [d]
  | e :: es => if e.updated_at < d.updated_at then d :: e :: es else e :: insertUpdatedDesc d es

/-- Stable sort, descending by `updated_at`. -/
def sortByUpdatedAtDesc (docs : List StoredDoc) : List StoredDoc :=
  docs.foldl (fun acc d => insertUpdatedDesc d acc) []

/-- The dict returned by `cleanup_duplicate_documents`. -/
structure CleanupResult where
  duplicate_stock_codes : Nat
  total_removed : Nat
deriving Repr, DecidableEq

/-- All documents of the collection for one stock code (the aggregation
group). -/
def groupFor (coll : List StoredDoc) (sc : String) : List StoredDoc :=
  coll.filter (fun d => d.stock_code = some sc)

/-- The stock codes whose group holds more than one document (the output of
the aggregation pipeline's `$match count > 1`), in first-occurrence order. -/
def duplicateKeys (coll : List StoredDoc) : List String :=
  ((coll.filterMap (fun d => d.stock_code)).dedup).filter
    (fun sc => 1 < (groupFor coll sc).length)

/-- The documents deleted by the cleanup: for each duplicated stock code,
everything after the head of the group sorted newest-first. -/
def removedDocs (coll : List StoredDoc) : List StoredDoc :=
  (duplicateKeys coll).flatMap (fun sc => (sortByUpdatedAtDesc (groupFor coll sc)).drop 1)

/-- `delete_one` keyed by `_id`: remove the first document carrying it. -/
def deleteOneById (coll : List StoredDoc) (i : Nat) : List StoredDoc :=
  match coll with
  | [] => []
  | d :: ds => if d.id = i then ds else d :: deleteOneById ds i

/-- The sequence of `delete_one` calls issued by the cleanup. -/
def deleteAllByIds (coll : List StoredDoc) (ids : List Nat) : List StoredDoc :=
  ids.foldl deleteOneById coll

/-- `MongoDBService.cleanup_duplicate_documents`: group by stock code, and
for every group with more than one document keep the newest (`updated_at`)
and `delete_one` each of the rest; reports the number of duplicated stock
codes and the number of issued deletions.  `conn = none` models the
connection-failure path, which returns an error dict instead. -/
def cleanup_duplicate_documents (conn : Option (List StoredDoc)) :
    Option (List StoredDoc × CleanupResult) :=
  match conn with
  | none => none
  | some coll =>
    let removed := removedDocs coll
    let removedIds := removed.map (fun d => d.id)
    some (deleteAllByIds coll removedIds,
      { duplicate_stock_codes := (duplicateKeys coll).length
        total_removed := removed.length })

/-- `get_document_by_stock_code`: `find_one` on the stock-code filter. -/
def get_document_by_stock_code (coll : List StoredDoc) (stock_code : String) :
    Option StoredDoc :=
  coll.find? (fun d => d.stock_code = some stock_code)

/-! ### Chunking and embedding
(`src/crawler/service/langchain_embedding_service.py`)

The Qdrant collection is a list of chunks; the LangChain
`RecursiveCharacterTextSplitter` is an external collaborator and enters as a
`split : String → List String` parameter.  `embed_and_store_document`
additionally returns the trace of vector-store write operations it issued,
so that claims about "zero writes" are about the trace, not only the final
state. -/

/-- One point of the Qdrant collection, with the metadata written by
`add_chunk_numbers`. -/
structure VectorChunk where
  stock_code : String
  chunk_number : Nat
  chunk_id : String
  content : String
deriving Repr, DecidableEq

/-- A write operation against the vector store. -/
inductive VectorOp where
  | deleteByStockCode (sc : String)
  | insertChunks (chunks : List VectorChunk)
deriving Repr, DecidableEq

/-- Python `f"..._{i:04d}"`: decimal rendering zero-padded to width 4. -/
def zeroPad4 (n : Nat) : String :=
  let s := toString n
  if s.length < 4 then String.mk (List.replicate (4 - s.length) '0') ++ s else s

/-- Python `str.strip()`: drop leading and trailing whitespace (implemented
on the character list so that concrete instances evaluate in the kernel). -/
def pyStrip (s : String) : String :=
  String.mk (((s.data.dropWhile Char.isWhitespace).reverse.dropWhile Char.isWhitespace).reverse)

/-- `create_langchain_documents`: an empty list when `parsed_content` is
empty or whitespace-only (Python `if not parsed_content.strip()`), else the
single document body to be chunked. -/
def create_langchain_documents (document : StoredDoc) : List String :=
  if pyStrip document.parsed_content = "" then [] else [document.parsed_content]

/-- `split_documents`: apply the text splitter to each document. -/
def split_documents (split : String → List String) (docs : List String) : List String :=
  docs.flatMap split

/-- `add_chunk_numbers`: tag chunk `i` (1-based) with its number and the id
`stock_code` + underscore + zero-padded number. -/
def add_chunk_numbers (contents : List String) (stock_code : String) : List VectorChunk :=
  contents.enum.map (fun ic =>
    { stock_code := stock_code
      chunk_number := ic.1 + 1
      chunk_id := stock_code ++ "_" ++ zeroPad4 (ic.1 + 1)
      content := ic.2 })

/-- Net effect of `delete_documents_by_stock_code` on the collection: every
chunk of the stock code is removed (the method's existence checks and filter
fallbacks all target the same write schema produced by
`add_chunk_numbers`). -/
def delete_documents_by_stock_code (vstore : List VectorChunk) (stock_code : String) :
    List VectorChunk :=
  vstore.filter (fun c => c.stock_code ≠ stock_code)

/-- The result dict of `embed_and_store_document`. -/
structure EmbedResult where
  success : Bool
  message : String
  chunks_count : Option Nat
deriving Repr, DecidableEq

/-- `LangChainEmbeddingService.embed_and_store_document`: fetch the document
(`doc?` is the `get_document_by_stock_code` answer), require
`success_yn == "Y"`, delete the stock code's existing chunks, convert /
split / number the content, insert the new chunks.  Returns the result
dict, the final vector store, and the trace of vector-store writes. -/
def embed_and_store_document (split : String → List String)
    (doc? : Option StoredDoc) (stock_code : String) (vstore : List VectorChunk) :
    EmbedResult × List VectorChunk × List VectorOp :=
  match doc? with
  | none =>
    ({ success := false
       message := "종목코드 " ++ stock_code ++ "에 해당하는 문서를 찾을 수 없습니다"
       chunks_count := none }, vstore, [])
  | some document =>
    if document.success_yn ≠ some "Y" then
      ({ success := false
         message := "종목코드 " ++ stock_code ++ "의 문서 처리 상태가 완료되지 않았습니다"
         chunks_count := none }, vstore, [])
    else
      let vstore1 := delete_documents_by_stock_code vstore stock_code
      let ops1 := [VectorOp.deleteByStockCode stock_code]
      let langchain_docs := create_langchain_documents document
      if langchain_docs = [] then
        ({ success := false
           message := "종목코드 " ++ stock_code ++ "의 문서 내용이 비어있습니다"
           chunks_count := none }, vstore1, ops1)
      else
        let split_docs := split_documents split langchain_docs
        if split_docs = [] then
          ({ success := false
             message := "종목코드 " ++ stock_code ++ "의 문서 분할에 실패했습니다"
             chunks_count := none }, vstore1, ops1)
        else
          let tagged := add_chunk_numbers split_docs stock_code
          ({ success := true
             message := "종목코드 " ++ stock_code ++ "의 임베딩이 성공적으로 저장되었습니다"
             chunks_count := some tagged.length },
           vstore1 ++ tagged, ops1 ++ [VectorOp.insertChunks tagged])

/-! ### Hybrid search (`hybrid_search`, lines 663–701)

Search scores are `ℚ`.  The vector and keyword searches are external
collaborators; `hybrid_search` receives their result lists. -/

/-- One entry of a vector- or keyword-search result list: the document id
read from the payload metadata (absent ids collide on `none`, exactly as the
Python `metadata.get("document_id")` does), the raw score and the
search-type tag. -/
structure SearchResult where
  document_id : Option String
  score : ℚ
  search_type : String
deriving Repr, DecidableEq

/-- An entry of the combined result list, carrying `final_score`. -/
structure HybridResult where
  document_id : Option String
  score : ℚ
  final_score : ℚ
  search_type : String
deriving Repr, DecidableEq

/-- A search result carried into the combined list with
`final_score = score * weight` (the `result["final_score"] = result["score"] * weight`
assignment applied on both the vector and the keyword side). -/
def weightEntry (weight : ℚ) (r : SearchResult) : HybridResult :=
  { document_id := r.document_id
    score := r.score
    final_score := r.score * weight
    search_type := r.search_type }

/-- The duplicate-collision branch of the keyword loop: add the weighted
keyword score to the first combined entry with the same document id and tag
it `"hybrid"` (the Python `for existing in combined_results: ... break`). -/
def addKeywordScoreToFirst (docId : Option String) (delta : ℚ) :
    List HybridResult → List HybridResult
  | [] => []
  | e :: es =>
    if e.document_id = docId then
      { e with final_score := e.final_score + delta, search_type := "hybrid" } :: es
    else e :: addKeywordScoreToFirst docId delta es

/-- One iteration of the keyword-result loop: a keyword result whose id was
seen among the vector results boosts that entry; otherwise it is appended
with its weighted score.  `existing_ids` is the id set computed once from
the vector results, before the loop. -/
def hybridStep (existing_ids : List (Option String)) (keyword_weight : ℚ)
    (acc : List HybridResult) (r : SearchResult) : List HybridResult :=
  if r.document_id ∈ existing_ids then
    addKeywordScoreToFirst r.document_id (r.score * keyword_weight) acc
  else
    acc ++ [weightEntry keyword_weight r]

/-- The merge phase of `hybrid_search`: weight the vector results, then fold
the keyword results through `hybridStep`. -/
def hybridCombine (vector_results keyword_results : List SearchResult)
    (vector_weight keyword_weight : ℚ) : List HybridResult :=
  let combined_results := vector_results.map (weightEntry vector_weight)
  let existing_ids := vector_results.map (fun r => r.document_id)
  keyword_results.foldl (hybridStep existing_ids keyword_weight) combined_results

/-- Stable insertion, descending by `final_score` (Python's stable
`list.sort(key=..., reverse=True)`). -/
def insertScoreDesc (d : HybridResult) : List HybridResult → List HybridResult
  | [] => [d]
  | e :: es => if e.final_score < d.final_score then d :: e :: es else e :: insertScoreDesc d es

/-- Stable sort, descending by `final_score`. -/
def sortByFinalScoreDesc (l : List HybridResult) : List HybridResult :=
  l.foldl (fun acc d => insertScoreDesc d acc) []

/-- `hybrid_search`: combine, sort by final score descending, truncate to
`limit`.  No weight normalization is applied anywhere. -/
def hybrid_search (vector_results keyword_results : List SearchResult)
    (limit : Nat) (vector_weight keyword_weight : ℚ) : List HybridResult :=
  (sortByFinalScoreDesc
    (hybridCombine vector_results keyword_results vector_weight keyword_weight)).take limit

/-- The weighted keyword contribution the merge gives to a document id: the
first keyword result with that id, weighted; zero when the keyword search
did not return the document. -/
def keywordBoost (keyword_results : List SearchResult) (keyword_weight : ℚ)
    (docId : Option String) : ℚ :=
  match keyword_results.find? (fun k => k.document_id = docId) with
  | some k => k.score * keyword_weight
  | none => 0

/-! ### Spec-side helpers and concrete instances used by the theorems -/

/-- The boost a combined entry receives from an optional keyword hit (used
only to state the merge characterization). -/
def boostEntry (keyword_weight : ℚ) (e : HybridResult) (k? : Option SearchResult) :
    HybridResult :=
  match k? with
  | some k =>
    { e with final_score := e.final_score + k.score * keyword_weight
             search_type := "hybrid" }
  | none => e

/-- A concrete two-page document used to instantiate theorems. -/
def twoPages : List RawPage :=
  [⟨1, "alpha", 5, 1⟩, ⟨2, "beta", 4, 1⟩]

/-- A concrete completion call that fails exactly on the user content built
from page text `"beta"`. -/
def failBeta : String → String → Except String String :=
  fun _ u => if u = "페이지 2 내용:\n\nbeta" then .error "boom" else .ok "ok"

/-- A concrete JSON parser that always reports a decode error, so the
raw-response fallback is taken. -/
def noParse : String → Option GptResponse := fun _ => none

/-- A concrete empty coordinator result used to instantiate theorems. -/
def emptyGptRun : ProcessingResult :=
  { total_pages := 0
    successful_pages := 0
    failed_pages := []
    page_results := []
    integrated_summary := .err "처리된 페이지가 없습니다" }

/-- A concrete all-default `pdf_metadata` argument. -/
def noMeta : PdfMetadata := ⟨none, none, none, none, none⟩

/-- Three stored documents sharing ticker `"T"`, with distinct
`updated_at` instants 5, 9, 7. -/
def dupDocA : StoredDoc :=
  ⟨1, some "T", "a.pdf", none, 0, "application/pdf", 0, "xa", 1, 1, [], "completed", none, 0, 5⟩

/-- Second duplicate, the newest (`updated_at = 9`). -/
def dupDocB : StoredDoc :=
  ⟨2, some "T", "b.pdf", none, 0, "application/pdf", 0, "xb", 1, 1, [], "completed", none, 0, 9⟩

/-- Third duplicate (`updated_at = 7`). -/
def dupDocC : StoredDoc :=
  ⟨3, some "T", "c.pdf", none, 0, "application/pdf", 0, "xc", 1, 1, [], "completed", none, 0, 7⟩

/-- The three-duplicate store of the cleanup scenario. -/
def dupStore : List StoredDoc := [dupDocA, dupDocB, dupDocC]

/-- A stored document whose success flag was never set (`success_yn = none`). -/
def pendingDoc : StoredDoc :=
  ⟨1, some "T", "a.pdf", none, 0, "application/pdf", 0, "내용", 2, 1, [2], "completed", none, 0, 5⟩

/-- A stored document passing the success-flag check but whose
`parsed_content` is whitespace only. -/
def wsDoc : StoredDoc :=
  ⟨1, some "T", "a.pdf", none, 0, "application/pdf", 0, "   ", 1, 1, [], "completed", some "Y", 0, 5⟩

/-- A vector store already holding one chunk for ticker `"T"`. -/
def oldChunks : List VectorChunk := [⟨"T", 1, "T_0001", "old"⟩]

/-- A trivial splitter: the whole text as one chunk. -/
def oneChunkSplit : String → List String := fun s => [s]

/-! ## Lemmas about the fan-out coordinator -/

theorem partitionPageResults_lengths (l : List (Except String PageResult)) (i : Nat) :
    (partitionPageResults l i).1.length + (partitionPageResults l i).2.length = l.length := by
  induction l generalizing i with
  | nil => simp [partitionPageResults]
  | cons x rest ih =>
    cases x with
    | ok r =>
      have := ih (i + 1)
      simp only [partitionPageResults, List.length_cons]
      omega
    | error e =>
      have := ih (i + 1)
      simp only [partitionPageResults, List.length_cons]
      omega

theorem partitionPageResults_eq (l : List (Except String PageResult)) (i : Nat) :
    partitionPageResults l i =
      (l.filterMap Except.toOption,
       (List.enumFrom i l).filterMap (fun p =>
         match p.2 with
         | .ok _ => none
         | .error _ => some (p.1 + 1))) := by
  induction l generalizing i with
  | nil => simp [partitionPageResults]
  | cons x rest ih =>
    cases x with
    | ok r => simp [partitionPageResults, ih (i + 1), Except.toOption]
    | error e => simp [partitionPageResults, ih (i + 1), Except.toOption]

theorem process_page_with_gpt_page_number (complete : String → String → Except String String)
    (parseJson : String → Option GptResponse) (prompt : String) (now : Nat)
    (page : RawPage) (r : PageResult)
    (h : process_page_with_gpt complete parseJson prompt now page = .ok r) :
    r.page_number = page.page_number := by
  unfold process_page_with_gpt at h
  cases hc : complete prompt ("페이지 " ++ toString page.page_number ++ " 내용:\n\n" ++ page.text) with
  | error e => rw [hc] at h; cases h
  | ok t =>
    rw [hc] at h
    cases h
    rfl

/-! ## Lemmas about the page-result merge -/

theorem foldl_append_singleton {α β : Type} (f : α → β) (l : List α) (acc : List β) :
    l.foldl (fun a x => a ++ [f x]) acc = acc ++ l.map f := by
  induction l generalizing acc with
  | nil => simp
  | cons x xs ih => simp [ih]

theorem combine_page_results_eq_sections (prs : List PageResult) :
    combine_page_results prs = "\n".intercalate (prs.map pageSection) := by
  unfold combine_page_results
  rw [List.foldl_ext _ (fun (acc : List String) pr => acc ++ [pageSection pr]) []
    (by
      intro a pr _
      rcases hg : pr.gpt_response with ⟨raw, k, s, c, str⟩ | s | s
      · cases raw <;> simp [pageSection, contentOf, hg]
      · simp [pageSection, contentOf, hg]
      · simp [pageSection, contentOf, hg])]
  rw [foldl_append_singleton]
  simp

/-! ## Claim theorems for the page pipeline -/

/-- C1: every run of the fan-out coordinator `process_pdf_with_gpt` over an
N-page document returns a `ProcessingResult` with
`total_pages = successful_pages + failed_pages.length` and
`successful_pages = page_results.length`. -/
theorem claim_C1_processing_counts (complete : String → String → Except String String)
    (parseJson : String → Option GptResponse) (prompt : String) (now : Nat)
    (pages : List RawPage) :
    (process_pdf_with_gpt complete parseJson prompt now pages).total_pages =
        (process_pdf_with_gpt complete parseJson prompt now pages).successful_pages +
          (process_pdf_with_gpt complete parseJson prompt now pages).failed_pages.length ∧
      (process_pdf_with_gpt complete parseJson prompt now pages).successful_pages =
        (process_pdf_with_gpt complete parseJson prompt now pages).page_results.length := by
  have h := partitionPageResults_lengths
    (pages.map (process_page_with_gpt complete parseJson prompt now)) 0
  constructor
  · simp only [process_pdf_with_gpt]
    simp only [List.length_map] at h
    omega
  · simp [process_pdf_with_gpt]

theorem enumFailed_eq (f : RawPage → Except String PageResult) :
    ∀ (pages : List RawPage) (k : Nat),
      (∀ i (h : i < pages.length), (pages.get ⟨i, h⟩).page_number = k + i + 1) →
      (List.enumFrom k (pages.map f)).filterMap (fun p =>
          match p.2 with | .ok _ => none | .error _ => some (p.1 + 1)) =
        (pages.filter (fun p => ((f p).toOption).isNone)).map (fun p => p.page_number)
  | [], _, _ => by simp
  | p :: rest, k, h => by
    have h0 : p.page_number = k + 1 := by
      have := h 0 (by simp)
      simpa using this
    have hrest : ∀ i (hi : i < rest.length), (rest.get ⟨i, hi⟩).page_number = (k + 1) + i + 1 := by
      intro i hi
      have := h (i + 1) (by simpa using Nat.succ_lt_succ hi)
      simp only [List.get_cons_succ] at this
      omega
    have ih := enumFailed_eq f rest (k + 1) hrest
    cases hf : f p with
    | ok r => simp [hf, ih, Except.toOption]
    | error e => simp [hf, ih, Except.toOption, h0]

/-- C2: the fan-out coordinator launches one per-page task per page and
gathers them all (`return_exceptions=True`): it returns a normal
`ProcessingResult` for every failure pattern, `page_results` is exactly the
list of per-page successes in page order — each page's entry depending only
on that page's own outcome — and `failed_pages` lists exactly the page
numbers of the failing pages (pages being numbered `1..N` in order, as the
splitter produces them). -/
theorem claim_C2_failure_isolation (complete : String → String → Except String String)
    (parseJson : String → Option GptResponse) (prompt : String) (now : Nat)
    (pages : List RawPage)
    (hnum : ∀ i (h : i < pages.length), (pages.get ⟨i, h⟩).page_number = i + 1) :
    (process_pdf_with_gpt complete parseJson prompt now pages).total_pages = pages.length ∧
      (process_pdf_with_gpt complete parseJson prompt now pages).page_results =
        pages.filterMap
          (fun p => (process_page_with_gpt complete parseJson prompt now p).toOption) ∧
      (process_pdf_with_gpt complete parseJson prompt now pages).failed_pages =
        (pages.filter (fun p =>
            ((process_page_with_gpt complete parseJson prompt now p).toOption).isNone)).map
          (fun p => p.page_number) := by
  refine ⟨rfl, ?_, ?_⟩
  · simp only [process_pdf_with_gpt, partitionPageResults_eq]
    rw [List.filterMap_map]
    rfl
  · simp only [process_pdf_with_gpt, partitionPageResults_eq]
    exact enumFailed_eq (process_page_with_gpt complete parseJson prompt now) pages 0
      (by simpa using hnum)

/-- Witness for C2: a two-page document whose second page's completion call
fails. -/
theorem claim_C2_failure_isolation_witness :
    (∀ i (h : i < twoPages.length), (twoPages.get ⟨i, h⟩).page_number = i + 1) ∧
      ((process_pdf_with_gpt failBeta noParse "p" 7 twoPages).total_pages = twoPages.length ∧
        (process_pdf_with_gpt failBeta noParse "p" 7 twoPages).page_results =
          twoPages.filterMap
            (fun p => (process_page_with_gpt failBeta noParse "p" 7 p).toOption) ∧
        (process_pdf_with_gpt failBeta noParse "p" 7 twoPages).failed_pages =
          (twoPages.filter (fun p =>
              ((process_page_with_gpt failBeta noParse "p" 7 p).toOption).isNone)).map
            (fun p => p.page_number)) :=
  ⟨by decide, claim_C2_failure_isolation failBeta noParse "p" 7 twoPages (by decide)⟩

/-- C6: the merge emits, for each page result in order, a page header
followed by that page's content, joined with newline separators into one
Markdown body; and on a 3-page document whose page-2 completion call fails
the coordinator reports `total_pages = 3`, `successful_pages = 2`,
`failed_pages = [2]`, and the merged document is exactly the section for
page 1 followed by the section for page 3. -/
theorem claim_C6_merge_sections (complete : String → String → Except String String)
    (parseJson : String → Option GptResponse) (prompt : String) (now : Nat)
    (t1 t2 t3 : String) (r1 r3 : PageResult) (e : String)
    (h1 : process_page_with_gpt complete parseJson prompt now
        ⟨1, t1, t1.length, pyWordCount t1⟩ = .ok r1)
    (h2 : process_page_with_gpt complete parseJson prompt now
        ⟨2, t2, t2.length, pyWordCount t2⟩ = .error e)
    (h3 : process_page_with_gpt complete parseJson prompt now
        ⟨3, t3, t3.length, pyWordCount t3⟩ = .ok r3) :
    (∀ prs, combine_page_results prs = "\n".intercalate (prs.map pageSection)) ∧
      split_pdf_by_pages [t1, t2, t3] =
        [⟨1, t1, t1.length, pyWordCount t1⟩, ⟨2, t2, t2.length, pyWordCount t2⟩,
          ⟨3, t3, t3.length, pyWordCount t3⟩] ∧
      (process_pdf_with_gpt complete parseJson prompt now
          (split_pdf_by_pages [t1, t2, t3])).total_pages = 3 ∧
      (process_pdf_with_gpt complete parseJson prompt now
          (split_pdf_by_pages [t1, t2, t3])).successful_pages = 2 ∧
      (process_pdf_with_gpt complete parseJson prompt now
          (split_pdf_by_pages [t1, t2, t3])).failed_pages = [2] ∧
      (process_pdf_with_gpt complete parseJson prompt now
          (split_pdf_by_pages [t1, t2, t3])).page_results = [r1, r3] ∧
      r1.page_number = 1 ∧ r3.page_number = 3 ∧
      combine_page_results
          (process_pdf_with_gpt complete parseJson prompt now
            (split_pdf_by_pages [t1, t2, t3])).page_results =
        pageSection r1 ++ "\n" ++ pageSection r3 := by
  have hsplit : split_pdf_by_pages [t1, t2, t3] =
      [⟨1, t1, t1.length, pyWordCount t1⟩, ⟨2, t2, t2.length, pyWordCount t2⟩,
        ⟨3, t3, t3.length, pyWordCount t3⟩] := rfl
  have hmap : ([(⟨1, t1, t1.length, pyWordCount t1⟩ : RawPage),
      ⟨2, t2, t2.length, pyWordCount t2⟩, ⟨3, t3, t3.length, pyWordCount t3⟩].map
        (process_page_with_gpt complete parseJson prompt now)) =
      [.ok r1, .error e, .ok r3] := by
    simp [h1, h2, h3]
  have hrun : process_pdf_with_gpt complete parseJson prompt now
      (split_pdf_by_pages [t1, t2, t3]) =
      { total_pages := 3
        successful_pages := 2
        failed_pages := [2]
        page_results := [r1, r3]
        integrated_summary := integrate_page_results [r1, r3] } := by
    rw [show process_pdf_with_gpt complete parseJson prompt now
        (split_pdf_by_pages [t1, t2, t3]) =
        process_pdf_with_gpt complete parseJson prompt now
          [⟨1, t1, t1.length, pyWordCount t1⟩, ⟨2, t2, t2.length, pyWordCount t2⟩,
            ⟨3, t3, t3.length, pyWordCount t3⟩] from rfl]
    unfold process_pdf_with_gpt
    rw [hmap]
    simp [partitionPageResults]
  refine ⟨combine_page_results_eq_sections, hsplit, ?_, ?_, ?_, ?_, ?_, ?_, ?_⟩
  · rw [hrun]
  · rw [hrun]
  · rw [hrun]
  · rw [hrun]
  · exact process_page_with_gpt_page_number complete parseJson prompt now _ r1 h1
  · exact process_page_with_gpt_page_number complete parseJson prompt now _ r3 h3
  · rw [hrun, combine_page_results_eq_sections]
    rfl

/-- Witness for C6: the concrete three-page document
`["alpha", "beta", "gamma"]` under the completion call failing on page 2. -/
theorem claim_C6_merge_sections_witness :
    process_page_with_gpt failBeta noParse "p" 7 ⟨1, "alpha", "alpha".length, pyWordCount "alpha"⟩ =
        .ok ⟨1, 5, 1, .jdict (some "ok") none none none "ok", 7⟩ ∧
      process_page_with_gpt failBeta noParse "p" 7 ⟨2, "beta", "beta".length, pyWordCount "beta"⟩ =
        .error "boom" ∧
      process_page_with_gpt failBeta noParse "p" 7 ⟨3, "gamma", "gamma".length, pyWordCount "gamma"⟩ =
        .ok ⟨3, 5, 1, .jdict (some "ok") none none none "ok", 7⟩ ∧
      ((∀ prs, combine_page_results prs = "\n".intercalate (prs.map pageSection)) ∧
        split_pdf_by_pages ["alpha", "beta", "gamma"] =
          [⟨1, "alpha", "alpha".length, pyWordCount "alpha"⟩,
            ⟨2, "beta", "beta".length, pyWordCount "beta"⟩,
            ⟨3, "gamma", "gamma".length, pyWordCount "gamma"⟩] ∧
        (process_pdf_with_gpt failBeta noParse "p" 7
            (split_pdf_by_pages ["alpha", "beta", "gamma"])).total_pages = 3 ∧
        (process_pdf_with_gpt failBeta noParse "p" 7
            (split_pdf_by_pages ["alpha", "beta", "gamma"])).successful_pages = 2 ∧
        (process_pdf_with_gpt failBeta noParse "p" 7
            (split_pdf_by_pages ["alpha", "beta", "gamma"])).failed_pages = [2] ∧
        (process_pdf_with_gpt failBeta noParse "p" 7
            (split_pdf_by_pages ["alpha", "beta", "gamma"])).page_results =
          [⟨1, 5, 1, .jdict (some "ok") none none none "ok", 7⟩,
            ⟨3, 5, 1, .jdict (some "ok") none none none "ok", 7⟩] ∧
        (⟨1, 5, 1, .jdict (some "ok") none none none "ok", 7⟩ : PageResult).page_number = 1 ∧
        (⟨3, 5, 1, .jdict (some "ok") none none none "ok", 7⟩ : PageResult).page_number = 3 ∧
        combine_page_results
            (process_pdf_with_gpt failBeta noParse "p" 7
              (split_pdf_by_pages ["alpha", "beta", "gamma"])).page_results =
          pageSection ⟨1, 5, 1, .jdict (some "ok") none none none "ok", 7⟩ ++ "\n" ++
            pageSection ⟨3, 5, 1, .jdict (some "ok") none none none "ok", 7⟩) :=
  ⟨by decide, by decide, by decide,
    claim_C6_merge_sections failBeta noParse "p" 7 "alpha" "beta" "gamma"
      ⟨1, 5, 1, .jdict (some "ok") none none none "ok", 7⟩
      ⟨3, 5, 1, .jdict (some "ok") none none none "ok", 7⟩
      "boom" (by decide) (by decide) (by decide)⟩

/-- C7: the inline page-result merge of the PDF download route computes
exactly the same string as `combine_page_results`, the function used on the
persistence path, on every input — the two call sites cannot diverge. -/
theorem claim_C7_router_merge_refines_combine :
    ∀ prs : List PageResult, routerCombinedMarkdown prs = combine_page_results prs :=
  fun _ => rfl

/-! ## Lemmas about the ticker-keyed upsert -/

theorem updateFirstMatching_no_match (coll : List StoredDoc) (sc : String) (s : DocSetFields)
    (h : ∀ d ∈ coll, d.stock_code ≠ some sc) :
    updateFirstMatching coll sc s = (coll, false) := by
  induction coll with
  | nil => rfl
  | cons d ds ih =>
    simp only [updateFirstMatching]
    rw [if_neg (by simpa using h d (by simp))]
    rw [ih (fun x hx => h x (by simp [hx]))]

theorem updateFirstMatching_append_last (coll : List StoredDoc) (nd : StoredDoc)
    (sc : String) (s : DocSetFields)
    (h : ∀ d ∈ coll, d.stock_code ≠ some sc) (hnd : nd.stock_code = some sc) :
    updateFirstMatching (coll ++ [nd]) sc s = (coll ++ [applySet nd s], true) := by
  induction coll with
  | nil => simp [updateFirstMatching, hnd]
  | cons d ds ih =>
    simp only [List.cons_append, updateFirstMatching, List.append_eq]
    rw [if_neg (by simpa using h d (by simp))]
    rw [ih (fun x hx => h x (by simp [hx]))]

/-- C3: upserting a document for the same ticker twice, starting from a
store holding no document for that ticker, leaves exactly one document for
the ticker; its `created_at` is the first write's instant (set only on
insert), its `updated_at` is the second write's instant, and every other
field carries the second write's values. -/
theorem claim_C3_upsert_idempotent (coll : List StoredDoc) (t : String)
    (hfresh : ∀ d ∈ coll, d.stock_code ≠ some t)
    (id1 id2 now1 now2 : Nat) (g1 g2 : ProcessingResult) (m1 m2 : PdfMetadata) :
    ∃ c1 c2 : List StoredDoc,
      (save_processed_document (some coll) id1 now1 t g1 m1).1 = some c1 ∧
      (save_processed_document (some c1) id2 now2 t g2 m2).1 = some c2 ∧
      ∃ d : StoredDoc,
        c2.filter (fun x => x.stock_code = some t) = [d] ∧
        d.created_at = now1 ∧
        d.updated_at = now2 ∧
        d.parsed_content = combine_page_results g2.page_results ∧
        d.filename = m2.filename.getD (t ++ "_report.pdf") ∧
        d.file_size = m2.file_size.getD 0 ∧
        d.total_pages = g2.total_pages ∧
        d.successful_pages = g2.successful_pages ∧
        d.failed_pages = g2.failed_pages ∧
        d.status = "completed" := by
  have hfilter : coll.filter (fun x => x.stock_code = some t) = [] := by
    rw [List.filter_eq_nil_iff]
    intro x hx
    simpa using hfresh x hx
  -- the $set documents of the two writes
  set s1 : DocSetFields :=
    { stock_code := t
      filename := m1.filename.getD (t ++ "_report.pdf")
      original_url := m1.original_url
      file_size := m1.file_size.getD 0
      content_type := m1.content_type.getD "application/pdf"
      download_time := m1.download_time.getD now1
      parsed_content := combine_page_results g1.page_results
      total_pages := g1.total_pages
      successful_pages := g1.successful_pages
      failed_pages := g1.failed_pages
      status := "completed"
      updated_at := now1 } with hs1
  set s2 : DocSetFields :=
    { stock_code := t
      filename := m2.filename.getD (t ++ "_report.pdf")
      original_url := m2.original_url
      file_size := m2.file_size.getD 0
      content_type := m2.content_type.getD "application/pdf"
      download_time := m2.download_time.getD now2
      parsed_content := combine_page_results g2.page_results
      total_pages := g2.total_pages
      successful_pages := g2.successful_pages
      failed_pages := g2.failed_pages
      status := "completed"
      updated_at := now2 } with hs2
  have hup1 : updateOneUpsert coll t s1 now1 id1 =
      (coll ++ [insertFromSet id1 s1 now1], some id1) := by
    unfold updateOneUpsert
    rw [updateFirstMatching_no_match coll t s1 hfresh]
    rfl
  have hnd : (insertFromSet id1 s1 now1).stock_code = some t := rfl
  have hup2 : updateOneUpsert (coll ++ [insertFromSet id1 s1 now1]) t s2 now2 id2 =
      (coll ++ [applySet (insertFromSet id1 s1 now1) s2], none) := by
    unfold updateOneUpsert
    rw [updateFirstMatching_append_last coll _ t s2 hfresh hnd]
    rfl
  refine ⟨coll ++ [insertFromSet id1 s1 now1],
    coll ++ [applySet (insertFromSet id1 s1 now1) s2], ?_, ?_, ?_⟩
  · show (save_processed_document (some coll) id1 now1 t g1 m1).1 = _
    simp only [save_processed_document]
    rw [← hs1, hup1]
  · show (save_processed_document (some (coll ++ [insertFromSet id1 s1 now1])) id2 now2 t g2 m2).1 = _
    simp only [save_processed_document]
    rw [← hs2, hup2]
    cases hfind : List.find? (fun d => decide (d.stock_code = some t))
        (coll ++ [applySet (insertFromSet id1 s1 now1) s2]) <;> simp [hfind]
  · refine ⟨applySet (insertFromSet id1 s1 now1) s2, ?_, rfl, rfl, rfl, rfl, rfl, rfl, rfl, rfl, rfl⟩
    rw [List.filter_append, hfilter]
    simp [applySet]

/-- Witness for C3: two upserts for ticker `"005930"` into an empty store, at
instants 10 and 20. -/
theorem claim_C3_upsert_idempotent_witness :
    (∀ d ∈ ([] : List StoredDoc), d.stock_code ≠ some "005930") ∧
      (∃ c1 c2 : List StoredDoc,
        (save_processed_document (some []) 1 10 "005930" emptyGptRun noMeta).1 = some c1 ∧
        (save_processed_document (some c1) 2 20 "005930" emptyGptRun noMeta).1 = some c2 ∧
        ∃ d : StoredDoc,
          c2.filter (fun x => x.stock_code = some "005930") = [d] ∧
          d.created_at = 10 ∧
          d.updated_at = 20 ∧
          d.parsed_content = combine_page_results emptyGptRun.page_results ∧
          d.filename = noMeta.filename.getD ("005930" ++ "_report.pdf") ∧
          d.file_size = noMeta.file_size.getD 0 ∧
          d.total_pages = emptyGptRun.total_pages ∧
          d.successful_pages = emptyGptRun.successful_pages ∧
          d.failed_pages = emptyGptRun.failed_pages ∧
          d.status = "completed") :=
  ⟨by decide,
    claim_C3_upsert_idempotent [] "005930" (by decide) 1 2 10 20
      emptyGptRun emptyGptRun noMeta noMeta⟩

/-! ## Lemmas about the duplicate cleanup -/

theorem mem_groupFor {coll : List StoredDoc} {sc : String} {d : StoredDoc} :
    d ∈ groupFor coll sc ↔ d ∈ coll ∧ d.stock_code = some sc := by
  simp [groupFor]

theorem insertUpdatedDesc_perm (d : StoredDoc) (l : List StoredDoc) :
    (insertUpdatedDesc d l).Perm (d :: l) := by
  induction l with
  | nil => simp [insertUpdatedDesc]
  | cons e es ih =>
    simp only [insertUpdatedDesc]
    by_cases h : e.updated_at < d.updated_at
    · rw [if_pos h]
    · rw [if_neg h]
      exact (ih.cons e).trans (List.Perm.swap d e es)

theorem foldl_insertUpdatedDesc_perm (l : List StoredDoc) :
    ∀ acc : List StoredDoc,
      (l.foldl (fun acc d => insertUpdatedDesc d acc) acc).Perm (l ++ acc) := by
  induction l with
  | nil => intro acc; simp
  | cons d ds ih =>
    intro acc
    have h1 := ih (insertUpdatedDesc d acc)
    have h2 : (ds ++ insertUpdatedDesc d acc).Perm (ds ++ d :: acc) :=
      List.Perm.append_left ds (insertUpdatedDesc_perm d acc)
    have h3 : (ds ++ d :: acc).Perm (d :: (ds ++ acc)) := List.perm_middle
    exact (h1.trans h2).trans h3

theorem sortByUpdatedAtDesc_perm (l : List StoredDoc) :
    (sortByUpdatedAtDesc l).Perm l := by
  have := foldl_insertUpdatedDesc_perm l []
  simpa [sortByUpdatedAtDesc] using this

theorem insertUpdatedDesc_sorted (d : StoredDoc) (l : List StoredDoc)
    (h : l.Sorted (fun a b => b.updated_at ≤ a.updated_at)) :
    (insertUpdatedDesc d l).Sorted (fun a b => b.updated_at ≤ a.updated_at) := by
  induction l with
  | nil => simp [insertUpdatedDesc]
  | cons e es ih =>
    rcases List.sorted_cons.mp h with ⟨he, hes⟩
    simp only [insertUpdatedDesc]
    by_cases hlt : e.updated_at < d.updated_at
    · rw [if_pos hlt]
      refine List.sorted_cons.mpr ⟨?_, h⟩
      intro b hb
      rcases List.mem_cons.mp hb with rfl | hb'
      · exact Nat.le_of_lt hlt
      · exact le_trans (he b hb') (Nat.le_of_lt hlt)
    · rw [if_neg hlt]
      refine List.sorted_cons.mpr ⟨?_, ih hes⟩
      intro b hb
      have hb2 : b ∈ d :: es := (insertUpdatedDesc_perm d es).mem_iff.mp hb
      rcases List.mem_cons.mp hb2 with rfl | hb'
      · exact Nat.le_of_not_lt hlt
      · exact he b hb'

theorem sortByUpdatedAtDesc_sorted (l : List StoredDoc) :
    (sortByUpdatedAtDesc l).Sorted (fun a b => b.updated_at ≤ a.updated_at) := by
  have key : ∀ (m acc : List StoredDoc),
      acc.Sorted (fun a b => b.updated_at ≤ a.updated_at) →
      (m.foldl (fun acc d => insertUpdatedDesc d acc) acc).Sorted
        (fun a b => b.updated_at ≤ a.updated_at) := by
    intro m
    induction m with
    | nil => intro acc hacc; simpa using hacc
    | cons d ds ih => intro acc hacc; exact ih _ (insertUpdatedDesc_sorted d acc hacc)
  exact key l [] (by simp)

theorem deleteOneById_eq_filter (coll : List StoredDoc) (i : Nat)
    (h : (coll.map (fun d => d.id)).Nodup) :
    deleteOneById coll i = coll.filter (fun d => d.id ≠ i) := by
  induction coll with
  | nil => rfl
  | cons d ds ih =>
    rw [List.map_cons] at h
    rcases List.nodup_cons.mp h with ⟨hd, hds⟩
    by_cases hid : d.id = i
    · simp only [deleteOneById, if_pos hid]
      rw [List.filter_cons_of_neg (by simp [hid])]
      symm
      rw [List.filter_eq_self]
      intro x hx
      have hxne : x.id ≠ i := by
        intro hxi
        exact hd (by rw [hid, ← hxi]; exact List.mem_map_of_mem _ hx)
      simpa using hxne
    · simp only [deleteOneById, if_neg hid]
      rw [List.filter_cons_of_pos (by simp [hid]), ih hds]

theorem deleteAllByIds_eq_filter (ids : List Nat) :
    ∀ coll : List StoredDoc, (coll.map (fun d => d.id)).Nodup →
      deleteAllByIds coll ids = coll.filter (fun d => !(ids.contains d.id)) := by
  induction ids with
  | nil =>
    intro coll _
    symm
    rw [deleteAllByIds, List.foldl_nil, List.filter_eq_self]
    intro a _
    simp
  | cons i is ih =>
    intro coll h
    show deleteAllByIds (deleteOneById coll i) is = _
    rw [deleteOneById_eq_filter coll i h]
    have hnd : ((coll.filter (fun d => d.id ≠ i)).map (fun d => d.id)).Nodup :=
      List.Nodup.sublist (List.Sublist.map _ (List.filter_sublist coll)) h
    rw [ih _ hnd, List.filter_filter]
    refine List.filter_congr ?_
    intro x _
    by_cases hx : x.id = i <;> simp [hx]

theorem filter_eq_singleton_of {α : Type} (p : α → Bool) (l : List α) (a : α)
    (hnd : l.Nodup) (ha : a ∈ l) (h : ∀ x ∈ l, (p x = true ↔ x = a)) :
    l.filter p = [a] := by
  induction l with
  | nil => cases ha
  | cons b bs ih =>
    rcases List.nodup_cons.mp hnd with ⟨hb, hnd'⟩
    by_cases hpb : p b = true
    · have hba : b = a := (h b (List.mem_cons_self b bs)).mp hpb
      rw [List.filter_cons_of_pos hpb]
      have hnil : bs.filter p = [] := by
        rw [List.filter_eq_nil_iff]
        intro x hx hpx
        have hxa : x = a := (h x (List.mem_cons_of_mem b hx)).mp hpx
        rw [hxa, ← hba] at hx
        exact hb hx
      rw [hnil, hba]
    · rw [List.filter_cons_of_neg hpb]
      have ha' : a ∈ bs := by
        rcases List.mem_cons.mp ha with heq | ha'
        · exact absurd ((h b (List.mem_cons_self b bs)).mpr heq.symm) hpb
        · exact ha'
      exact ih hnd' ha' (fun x hx => h x (List.mem_cons_of_mem b hx))

theorem mem_removedDocs_mem_coll (coll : List StoredDoc) :
    ∀ r ∈ removedDocs coll, r ∈ coll := by
  intro r hr
  rw [removedDocs, List.mem_flatMap] at hr
  obtain ⟨sc', _, hrin⟩ := hr
  have h1 : r ∈ sortByUpdatedAtDesc (groupFor coll sc') :=
    (List.drop_sublist 1 _).subset hrin
  have h2 : r ∈ groupFor coll sc' := (sortByUpdatedAtDesc_perm _).mem_iff.mp h1
  exact (mem_groupFor.mp h2).1

/-- C8: on any collection with MongoDB's unique `_id` invariant, the cleanup
reports the number of duplicated stock codes and `total_removed` equal to the
sum over duplicated groups of (size − 1), and for every stock code whose
group has more than one document, the final collection holds exactly one
document for it — one of the group's documents, whose `updated_at` is
maximal in the group (the tie-break on equal instants is whichever the
stable descending sort placed first). -/
theorem claim_C8_cleanup_newest_wins (coll : List StoredDoc)
    (hids : (coll.map (fun d => d.id)).Nodup) :
    ∃ (final : List StoredDoc) (cres : CleanupResult),
      cleanup_duplicate_documents (some coll) = some (final, cres) ∧
      cres.duplicate_stock_codes = (duplicateKeys coll).length ∧
      cres.total_removed =
        ((duplicateKeys coll).map (fun sc => (groupFor coll sc).length - 1)).sum ∧
      (∀ sc, 1 < (groupFor coll sc).length →
        ∃ keep, groupFor final sc = [keep] ∧ keep ∈ groupFor coll sc ∧
          ∀ d ∈ groupFor coll sc, d.updated_at ≤ keep.updated_at) := by
  refine ⟨deleteAllByIds coll ((removedDocs coll).map (fun d : StoredDoc => d.id)),
    ⟨(duplicateKeys coll).length, (removedDocs coll).length⟩, rfl, rfl, ?_, ?_⟩
  · show (removedDocs coll).length = _
    rw [removedDocs, List.length_flatMap]
    congr 1
    refine List.map_congr_left ?_
    intro sc _
    show ((sortByUpdatedAtDesc (groupFor coll sc)).drop 1).length =
      (groupFor coll sc).length - 1
    rw [List.length_drop, (sortByUpdatedAtDesc_perm _).length_eq]
  · intro sc hg
    have hgsub : (groupFor coll sc).Sublist coll := List.filter_sublist coll
    have hgids : ((groupFor coll sc).map (fun d => d.id)).Nodup :=
      List.Nodup.sublist (List.Sublist.map _ hgsub) hids
    have hgnd : (groupFor coll sc).Nodup := List.Nodup.of_map _ hgids
    have hperm := sortByUpdatedAtDesc_perm (groupFor coll sc)
    have hsortnd : (sortByUpdatedAtDesc (groupFor coll sc)).Nodup := hperm.symm.nodup hgnd
    have hsorted := sortByUpdatedAtDesc_sorted (groupFor coll sc)
    obtain ⟨keep, rest, hsk⟩ :
        ∃ k r, sortByUpdatedAtDesc (groupFor coll sc) = k :: r := by
      cases hs : sortByUpdatedAtDesc (groupFor coll sc) with
      | nil =>
        exfalso
        have hlen := hperm.length_eq
        rw [hs] at hlen
        simp at hlen
        omega
      | cons k r => exact ⟨k, r, rfl⟩
    have hkeepg : keep ∈ groupFor coll sc :=
      hperm.mem_iff.mp (by rw [hsk]; exact List.mem_cons_self keep rest)
    have hkeepmax : ∀ d ∈ groupFor coll sc, d.updated_at ≤ keep.updated_at := by
      intro d hd
      have hds : d ∈ keep :: rest := by rw [← hsk]; exact hperm.mem_iff.mpr hd
      rcases List.mem_cons.mp hds with rfl | hr
      · exact le_refl _
      · rw [hsk] at hsorted
        exact (List.sorted_cons.mp hsorted).1 d hr
    have hkeeprest : keep ∉ rest := by
      rw [hsk] at hsortnd
      exact (List.nodup_cons.mp hsortnd).1
    have hscdup : sc ∈ duplicateKeys coll := by
      rw [duplicateKeys, List.mem_filter]
      refine ⟨?_, by simpa using hg⟩
      rw [List.mem_dedup, List.mem_filterMap]
      obtain ⟨d, hd⟩ : ∃ d, d ∈ groupFor coll sc := by
        cases hcase : groupFor coll sc with
        | nil => rw [hcase] at hg; simp at hg
        | cons a l => exact ⟨a, List.mem_cons_self a l⟩
      exact ⟨d, (mem_groupFor.mp hd).1, (mem_groupFor.mp hd).2⟩
    have hmemrem : ∀ d ∈ groupFor coll sc, (d ∈ removedDocs coll ↔ d ∈ rest) := by
      intro d hd
      constructor
      · intro hdr
        rw [removedDocs, List.mem_flatMap] at hdr
        obtain ⟨sc', _, hdin⟩ := hdr
        have hdg' : d ∈ groupFor coll sc' :=
          (sortByUpdatedAtDesc_perm _).mem_iff.mp ((List.drop_sublist 1 _).subset hdin)
        have h1 : d.stock_code = some sc := (mem_groupFor.mp hd).2
        have h2 : d.stock_code = some sc' := (mem_groupFor.mp hdg').2
        have hsceq : sc' = sc := by
          rw [h1] at h2
          exact (Option.some.injEq _ _ ▸ h2).symm
        rw [hsceq, hsk] at hdin
        simpa using hdin
      · intro hdr
        rw [removedDocs, List.mem_flatMap]
        exact ⟨sc, hscdup, by rw [hsk]; simpa using hdr⟩
    have hcontains : ∀ x ∈ groupFor coll sc,
        ((((removedDocs coll).map (fun d => d.id)).contains x.id) = true ↔
          x ∈ removedDocs coll) := by
      intro x hx
      constructor
      · intro hc
        have hmem := List.elem_iff.mp hc
        rw [List.mem_map] at hmem
        obtain ⟨r, hr, hrid⟩ := hmem
        have hxcoll : x ∈ coll := (mem_groupFor.mp hx).1
        have hrx : r = x :=
          List.inj_on_of_nodup_map hids (mem_removedDocs_mem_coll coll r hr) hxcoll hrid
        rwa [hrx] at hr
      · intro hxr
        exact List.elem_iff.mpr (List.mem_map_of_mem _ hxr)
    refine ⟨keep, ?_, hkeepg, hkeepmax⟩
    rw [deleteAllByIds_eq_filter _ _ hids]
    have hswap : groupFor
        (coll.filter (fun d => !(((removedDocs coll).map (fun d => d.id)).contains d.id))) sc =
        (groupFor coll sc).filter
          (fun d => !(((removedDocs coll).map (fun d => d.id)).contains d.id)) := by
      rw [groupFor, groupFor, List.filter_filter, List.filter_filter]
      exact List.filter_congr (fun x _ => Bool.and_comm _ _)
    rw [hswap]
    refine filter_eq_singleton_of _ (groupFor coll sc) keep hgnd hkeepg ?_
    intro x hx
    constructor
    · intro hpx
      have hxnotrem : x ∉ removedDocs coll := by
        intro hxr
        have hc := (hcontains x hx).mpr hxr
        rw [hc] at hpx
        simp at hpx
      have hxrest : x ∉ rest := fun hr => hxnotrem ((hmemrem x hx).mpr hr)
      have hxs : x ∈ keep :: rest := by rw [← hsk]; exact hperm.mem_iff.mpr hx
      rcases List.mem_cons.mp hxs with h | h
      · exact h
      · exact absurd h hxrest
    · intro hxk
      have hnr : x ∉ removedDocs coll := by
        rw [hxk]
        exact fun hr => hkeeprest ((hmemrem keep hkeepg).mp hr)
      have hcf : (((removedDocs coll).map (fun d => d.id)).contains x.id) = false := by
        by_contra hcc
        rw [Bool.not_eq_false] at hcc
        exact hnr ((hcontains x hx).mp hcc)
      rw [hcf]
      rfl

/-- Witness for C8: the three-duplicate store; the cleanup keeps the newest
document and reports one duplicated ticker with two removals. -/
theorem claim_C8_cleanup_newest_wins_witness :
    (dupStore.map (fun d => d.id)).Nodup ∧
      (∃ (final : List StoredDoc) (cres : CleanupResult),
        cleanup_duplicate_documents (some dupStore) = some (final, cres) ∧
        cres.duplicate_stock_codes = (duplicateKeys dupStore).length ∧
        cres.total_removed =
          ((duplicateKeys dupStore).map (fun sc => (groupFor dupStore sc).length - 1)).sum ∧
        (∀ sc, 1 < (groupFor dupStore sc).length →
          ∃ keep, groupFor final sc = [keep] ∧ keep ∈ groupFor dupStore sc ∧
            ∀ d ∈ groupFor dupStore sc, d.updated_at ≤ keep.updated_at)) ∧
      cleanup_duplicate_documents (some dupStore) = some ([dupDocB], ⟨1, 2⟩) :=
  ⟨by decide, claim_C8_cleanup_newest_wins dupStore (by decide), by decide⟩

/-! ## Claim theorems for the embedding pipeline -/

/-- C4: for a stored document whose success flag differs from `"Y"`,
`embed_and_store_document` returns a structured failure and performs zero
writes to the vector store: the write trace is empty and the store state is
untouched (no delete, no insert). -/
theorem claim_C4_no_embed_without_success (split : String → List String)
    (doc : StoredDoc) (stock_code : String) (vstore : List VectorChunk)
    (hflag : doc.success_yn ≠ some "Y") :
    (embed_and_store_document split (some doc) stock_code vstore).1.success = false ∧
      (embed_and_store_document split (some doc) stock_code vstore).2.1 = vstore ∧
      (embed_and_store_document split (some doc) stock_code vstore).2.2 = [] := by
  simp only [embed_and_store_document]
  rw [if_pos hflag]
  exact ⟨rfl, rfl, rfl⟩

/-- Witness for C4: a document with an unset success flag and a vector store
already holding a chunk of the ticker. -/
theorem claim_C4_no_embed_without_success_witness :
    pendingDoc.success_yn ≠ some "Y" ∧
      ((embed_and_store_document oneChunkSplit (some pendingDoc) "T" oldChunks).1.success = false ∧
        (embed_and_store_document oneChunkSplit (some pendingDoc) "T" oldChunks).2.1 = oldChunks ∧
        (embed_and_store_document oneChunkSplit (some pendingDoc) "T" oldChunks).2.2 = []) :=
  ⟨by decide,
    claim_C4_no_embed_without_success oneChunkSplit pendingDoc "T" oldChunks (by decide)⟩

/-- C10 (implicit in the code): for a document that passes the success-flag
check but whose `parsed_content` is empty or whitespace-only, the delete of
the ticker's existing chunks precedes the content validation: the call
returns a failure, the write trace is exactly the delete (no insert), and
the ticker ends with zero chunks in the vector store. -/
theorem claim_C10_delete_precedes_validation (split : String → List String)
    (doc : StoredDoc) (stock_code : String) (vstore : List VectorChunk)
    (hflag : doc.success_yn = some "Y")
    (hempty : pyStrip doc.parsed_content = "") :
    (embed_and_store_document split (some doc) stock_code vstore).1.success = false ∧
      (embed_and_store_document split (some doc) stock_code vstore).2.2 =
        [VectorOp.deleteByStockCode stock_code] ∧
      ((embed_and_store_document split (some doc) stock_code vstore).2.1).filter
          (fun c => c.stock_code = stock_code) = [] := by
  have hne : ¬ (doc.success_yn ≠ some "Y") := by simp [hflag]
  have hdocs : create_langchain_documents doc = [] := by
    unfold create_langchain_documents
    rw [if_pos hempty]
  simp only [embed_and_store_document]
  rw [if_neg hne]
  simp only [hdocs, if_true]
  refine ⟨trivial, trivial, ?_⟩
  show (delete_documents_by_stock_code vstore stock_code).filter
    (fun c => c.stock_code = stock_code) = []
  unfold delete_documents_by_stock_code
  rw [List.filter_filter, List.filter_eq_nil_iff]
  intro c _
  by_cases hc : c.stock_code = stock_code <;> simp [hc]

/-- Witness for C10: a whitespace-only document with flag `"Y"`, against a
store holding one prior chunk for the ticker. -/
theorem claim_C10_delete_precedes_validation_witness :
    wsDoc.success_yn = some "Y" ∧ pyStrip wsDoc.parsed_content = "" ∧
      ((embed_and_store_document oneChunkSplit (some wsDoc) "T" oldChunks).1.success = false ∧
        (embed_and_store_document oneChunkSplit (some wsDoc) "T" oldChunks).2.2 =
          [VectorOp.deleteByStockCode "T"] ∧
        ((embed_and_store_document oneChunkSplit (some wsDoc) "T" oldChunks).2.1).filter
            (fun c => c.stock_code = "T") = []) :=
  ⟨by decide, by decide,
    claim_C10_delete_precedes_validation oneChunkSplit wsDoc "T" oldChunks
      (by decide) (by decide)⟩

/-! ## Claim theorems for store-failure behaviour -/

/-- Counterexample to C9: with the store unreachable (`_get_collection`
catches the connection failure and yields no collection),
`save_processed_document` does NOT surface an error — it returns the
fabricated success value `"mock_document_id"`, refuting the claim that every
store-level failure propagates to the caller as an explicit failure. -/
theorem claim_C9_store_failure_counterexample :
    ¬ ((save_processed_document none 1 10 "005930" emptyGptRun noMeta).2 ≠
        "mock_document_id") := by
  intro h
  exact h rfl

/-- C9 (amended): a store-connectivity failure at collection acquisition is
caught inside `_get_collection`; `save_processed_document` then returns the
sentinel id string `"mock_document_id"` as a normal (non-error) result and
issues no store write, and `cleanup_duplicate_documents` likewise returns
its error dict without raising; the operation is attempted once with no
retry.  Errors raised by the store operations themselves (`update_one`,
`find_one`) are not caught in these methods and would propagate. -/
theorem claim_C9_mock_id_on_unreachable_store (freshId now : Nat) (stock_code : String)
    (g : ProcessingResult) (m : PdfMetadata) :
    save_processed_document none freshId now stock_code g m = (none, "mock_document_id") ∧
      cleanup_duplicate_documents none = none :=
  ⟨rfl, rfl⟩

/-! ## Lemmas about the hybrid-search merge -/

theorem addKeywordScoreToFirst_append (docId : Option String) (delta : ℚ)
    (A B : List HybridResult) (h : docId ∈ A.map (fun e => e.document_id)) :
    addKeywordScoreToFirst docId delta (A ++ B) =
      addKeywordScoreToFirst docId delta A ++ B := by
  induction A with
  | nil => simp at h
  | cons e es ih =>
    simp only [List.cons_append, addKeywordScoreToFirst, List.append_eq]
    by_cases he : e.document_id = docId
    · rw [if_pos he, if_pos he]
      rfl
    · rw [if_neg he, if_neg he]
      rw [ih (by
        rcases List.mem_map.mp h with ⟨x, hx, hxe⟩
        rcases List.mem_cons.mp hx with rfl | hx'
        · exact absurd hxe he
        · exact List.mem_map.mpr ⟨x, hx', hxe⟩)]
      rfl

theorem addKeywordScoreToFirst_map_id (docId : Option String) (delta : ℚ)
    (A : List HybridResult) :
    (addKeywordScoreToFirst docId delta A).map (fun e => e.document_id) =
      A.map (fun e => e.document_id) := by
  induction A with
  | nil => rfl
  | cons e es ih =>
    simp only [addKeywordScoreToFirst]
    by_cases he : e.document_id = docId
    · rw [if_pos he]
      simp
    · rw [if_neg he]
      simp [ih]

theorem find?_id_eq_self (kres : List SearchResult) (k : SearchResult)
    (hk : (kres.map (fun r => r.document_id)).Nodup) (hmem : k ∈ kres) :
    kres.find? (fun x => x.document_id = k.document_id) = some k := by
  induction kres with
  | nil => cases hmem
  | cons a l ih =>
    rw [List.map_cons] at hk
    rcases List.nodup_cons.mp hk with ⟨ha, hl⟩
    rcases List.mem_cons.mp hmem with rfl | hmem'
    · rw [List.find?_cons_of_pos _ (by simp)]
    · by_cases hax : a.document_id = k.document_id
      · exact absurd (by rw [hax]; exact List.mem_map_of_mem _ hmem') ha
      · rw [List.find?_cons_of_neg _ (by simp [hax])]
        exact ih hl hmem'

theorem addKeywordScoreToFirst_boost (kw : ℚ) (k : SearchResult) (ks : List SearchResult)
    (A : List HybridResult)
    (hnd : (A.map (fun e => e.document_id)).Nodup)
    (hks : ∀ k' ∈ ks, k'.document_id ≠ k.document_id) :
    (addKeywordScoreToFirst k.document_id (k.score * kw) A).map
        (fun e => boostEntry kw e (ks.find? (fun x => x.document_id = e.document_id))) =
      A.map (fun e => boostEntry kw e
        ((k :: ks).find? (fun x => x.document_id = e.document_id))) := by
  induction A with
  | nil => rfl
  | cons e es ih =>
    rw [List.map_cons] at hnd
    rcases List.nodup_cons.mp hnd with ⟨he, hes⟩
    simp only [addKeywordScoreToFirst]
    by_cases heq : e.document_id = k.document_id
    · rw [if_pos heq]
      simp only [List.map_cons]
      have hfks : ks.find? (fun x => x.document_id = e.document_id) = none := by
        rw [List.find?_eq_none]
        intro x hx
        simp only [decide_eq_true_eq]
        rw [heq]
        exact hks x hx
      have hfkks : (k :: ks).find? (fun x => x.document_id = e.document_id) = some k :=
        List.find?_cons_of_pos _ (by simp [heq])
      rw [hfkks]
      congr 1
      · show boostEntry kw
          { e with final_score := e.final_score + k.score * kw, search_type := "hybrid" }
          (ks.find? (fun x => x.document_id = e.document_id)) = _
        rw [hfks]
        rfl
      · refine List.map_congr_left ?_
        intro x hx
        have hxk : x.document_id ≠ k.document_id := by
          intro hc
          exact he (by rw [heq, ← hc]; exact List.mem_map_of_mem _ hx)
        rw [List.find?_cons_of_neg _ (by simp; intro hc; exact hxk hc.symm)]
    · rw [if_neg heq]
      simp only [List.map_cons]
      congr 1
      · rw [List.find?_cons_of_neg _ (by simp; intro hc; exact heq hc.symm)]
      · exact ih hes

theorem hybrid_foldl_eq (kw : ℚ) (existing : List (Option String)) :
    ∀ (kres : List SearchResult) (A B : List HybridResult),
      A.map (fun e => e.document_id) = existing →
      (∀ b ∈ B, b.document_id ∉ existing) →
      (kres.map (fun k => k.document_id)).Nodup →
      existing.Nodup →
      kres.foldl (hybridStep existing kw) (A ++ B) =
        A.map (fun e => boostEntry kw e
            (kres.find? (fun x => x.document_id = e.document_id)))
          ++ B
          ++ (kres.filter (fun x => !(existing.contains x.document_id))).map (weightEntry kw)
  | [], A, B, hA, hB, hk, hnd => by
    simp [boostEntry]
  | k :: ks, A, B, hA, hB, hk, hnd => by
    rw [List.map_cons] at hk
    rcases List.nodup_cons.mp hk with ⟨hkid, hks⟩
    simp only [List.foldl_cons]
    by_cases hmem : k.document_id ∈ existing
    · have hcont : existing.contains k.document_id = true := List.elem_iff.mpr hmem
      rw [show hybridStep existing kw (A ++ B) k =
          addKeywordScoreToFirst k.document_id (k.score * kw) (A ++ B) from by
        unfold hybridStep; rw [if_pos hmem]]
      rw [addKeywordScoreToFirst_append _ _ A B (by rw [hA]; exact hmem)]
      have hA' : (addKeywordScoreToFirst k.document_id (k.score * kw) A).map
          (fun e => e.document_id) = existing := by
        rw [addKeywordScoreToFirst_map_id, hA]
      rw [hybrid_foldl_eq kw existing ks _ B hA' hB hks hnd]
      have hboost := addKeywordScoreToFirst_boost kw k ks A (by rw [hA]; exact hnd)
        (fun k' hk' => by
          intro hc
          exact hkid (by rw [← hc]; exact List.mem_map_of_mem _ hk'))
      rw [hboost]
      have hfilt : (k :: ks).filter (fun x => !(existing.contains x.document_id)) =
          ks.filter (fun x => !(existing.contains x.document_id)) :=
        List.filter_cons_of_neg (by rw [hcont]; simp)
      rw [hfilt]
    · have hcont : existing.contains k.document_id = false := by
        cases hc : existing.contains k.document_id
        · rfl
        · exact absurd (List.elem_iff.mp hc) hmem
      rw [show hybridStep existing kw (A ++ B) k = (A ++ B) ++ [weightEntry kw k] from by
        unfold hybridStep; rw [if_neg hmem]]
      rw [List.append_assoc]
      rw [hybrid_foldl_eq kw existing ks A (B ++ [weightEntry kw k]) hA
        (by
          intro b hb
          rcases List.mem_append.mp hb with hb' | hb'
          · exact hB b hb'
          · rw [List.mem_singleton.mp hb']
            exact hmem)
        hks hnd]
      have hA2 : A.map (fun e => boostEntry kw e
          (ks.find? (fun x => x.document_id = e.document_id))) =
          A.map (fun e => boostEntry kw e
            ((k :: ks).find? (fun x => x.document_id = e.document_id))) := by
        refine List.map_congr_left ?_
        intro e hein
        have heid : e.document_id ∈ existing := by
          rw [← hA]; exact List.mem_map_of_mem _ hein
        have hne : k.document_id ≠ e.document_id := fun hc => hmem (hc ▸ heid)
        rw [List.find?_cons_of_neg _ (by simp [hne])]
      rw [hA2]
      have hfilt : (k :: ks).filter (fun x => !(existing.contains x.document_id)) =
          k :: ks.filter (fun x => !(existing.contains x.document_id)) :=
        List.filter_cons_of_pos (by rw [hcont]; rfl)
      rw [hfilt, List.map_cons]
      simp [List.append_assoc]

theorem insertScoreDesc_perm (d : HybridResult) (l : List HybridResult) :
    (insertScoreDesc d l).Perm (d :: l) := by
  induction l with
  | nil => simp [insertScoreDesc]
  | cons e es ih =>
    simp only [insertScoreDesc]
    by_cases h : e.final_score < d.final_score
    · rw [if_pos h]
    · rw [if_neg h]
      exact (ih.cons e).trans (List.Perm.swap d e es)

theorem insertScoreDesc_sorted (d : HybridResult) (l : List HybridResult)
    (h : l.Sorted (fun a b => b.final_score ≤ a.final_score)) :
    (insertScoreDesc d l).Sorted (fun a b => b.final_score ≤ a.final_score) := by
  induction l with
  | nil => simp [insertScoreDesc]
  | cons e es ih =>
    rcases List.sorted_cons.mp h with ⟨he, hes⟩
    simp only [insertScoreDesc]
    by_cases hlt : e.final_score < d.final_score
    · rw [if_pos hlt]
      refine List.sorted_cons.mpr ⟨?_, h⟩
      intro b hb
      rcases List.mem_cons.mp hb with rfl | hb'
      · exact le_of_lt hlt
      · exact le_trans (he b hb') (le_of_lt hlt)
    · rw [if_neg hlt]
      refine List.sorted_cons.mpr ⟨?_, ih hes⟩
      intro b hb
      have hb2 : b ∈ d :: es := (insertScoreDesc_perm d es).mem_iff.mp hb
      rcases List.mem_cons.mp hb2 with rfl | hb'
      · exact le_of_not_lt hlt
      · exact he b hb'

theorem sortByFinalScoreDesc_sorted (l : List HybridResult) :
    (sortByFinalScoreDesc l).Sorted (fun a b => b.final_score ≤ a.final_score) := by
  have key : ∀ (m acc : List HybridResult),
      acc.Sorted (fun a b => b.final_score ≤ a.final_score) →
      (m.foldl (fun acc d => insertScoreDesc d acc) acc).Sorted
        (fun a b => b.final_score ≤ a.final_score) := by
    intro m
    induction m with
    | nil => intro acc hacc; simpa using hacc
    | cons d ds ih => intro acc hacc; exact ih _ (insertScoreDesc_sorted d acc hacc)
  exact key l [] (by simp)

/-- C5: in `hybrid_search` (with each search's result set keyed by distinct
document ids), a document found by both searches receives a combined final
score of `vector_score * vector_weight + keyword_score * keyword_weight`;
documents found by only one search keep their score scaled by that search's
weight (no normalization of the weights anywhere); and the returned list is
the merged list sorted descending by final score, truncated to `limit`. -/
theorem claim_C5_hybrid_scores (vres kres : List SearchResult) (limit : Nat) (vw kw : ℚ)
    (hv : (vres.map (fun r => r.document_id)).Nodup)
    (hk : (kres.map (fun r => r.document_id)).Nodup) :
    (∀ v ∈ vres, ∀ k ∈ kres, v.document_id = k.document_id →
      ∃ e ∈ hybridCombine vres kres vw kw,
        e.document_id = v.document_id ∧ e.final_score = v.score * vw + k.score * kw) ∧
    (∀ v ∈ vres, v.document_id ∉ kres.map (fun r => r.document_id) →
      ∃ e ∈ hybridCombine vres kres vw kw,
        e.document_id = v.document_id ∧ e.final_score = v.score * vw) ∧
    (∀ k ∈ kres, k.document_id ∉ vres.map (fun r => r.document_id) →
      ∃ e ∈ hybridCombine vres kres vw kw,
        e.document_id = k.document_id ∧ e.final_score = k.score * kw) ∧
    hybrid_search vres kres limit vw kw =
      (sortByFinalScoreDesc (hybridCombine vres kres vw kw)).take limit ∧
    (hybrid_search vres kres limit vw kw).Sorted
      (fun a b => b.final_score ≤ a.final_score) ∧
    (hybrid_search vres kres limit vw kw).length ≤ limit := by
  have hA : (vres.map (weightEntry vw)).map (fun e => e.document_id) =
      vres.map (fun r => r.document_id) := by
    rw [List.map_map]
    rfl
  have hchar : hybridCombine vres kres vw kw =
      (vres.map (weightEntry vw)).map (fun e => boostEntry kw e
          (kres.find? (fun x => x.document_id = e.document_id)))
        ++ []
        ++ (kres.filter (fun x =>
            !((vres.map (fun r => r.document_id)).contains x.document_id))).map
          (weightEntry kw) := by
    show kres.foldl (hybridStep (vres.map (fun r => r.document_id)) kw)
        (vres.map (weightEntry vw)) = _
    have heq := hybrid_foldl_eq kw (vres.map (fun r => r.document_id)) kres
      (vres.map (weightEntry vw)) [] hA (by intro b hb; cases hb) hk hv
    rw [List.append_nil] at heq
    exact heq
  refine ⟨?_, ?_, ?_, rfl, ?_, ?_⟩
  · intro v hvin k hkin hid
    refine ⟨boostEntry kw (weightEntry vw v)
      (kres.find? (fun x => x.document_id = (weightEntry vw v).document_id)), ?_, ?_, ?_⟩
    · rw [hchar]
      refine List.mem_append_left _ (List.mem_append_left _ ?_)
      exact List.mem_map_of_mem _ (List.mem_map_of_mem _ hvin)
    · have hfind : kres.find? (fun x => x.document_id = (weightEntry vw v).document_id) =
          some k := by
        show kres.find? (fun x => x.document_id = v.document_id) = some k
        rw [hid]
        exact find?_id_eq_self kres k hk hkin
      rw [hfind]
      rfl
    · have hfind : kres.find? (fun x => x.document_id = (weightEntry vw v).document_id) =
          some k := by
        show kres.find? (fun x => x.document_id = v.document_id) = some k
        rw [hid]
        exact find?_id_eq_self kres k hk hkin
      rw [hfind]
      rfl
  · intro v hvin hnok
    refine ⟨boostEntry kw (weightEntry vw v)
      (kres.find? (fun x => x.document_id = (weightEntry vw v).document_id)), ?_, ?_, ?_⟩
    · rw [hchar]
      refine List.mem_append_left _ (List.mem_append_left _ ?_)
      exact List.mem_map_of_mem _ (List.mem_map_of_mem _ hvin)
    · have hfind : kres.find? (fun x => x.document_id = (weightEntry vw v).document_id) =
          none := by
        rw [List.find?_eq_none]
        intro x hx
        simp only [decide_eq_true_eq]
        intro hc
        have hc' : x.document_id = v.document_id := hc
        exact hnok (by rw [← hc']; exact List.mem_map_of_mem _ hx)
      rw [hfind]
      rfl
    · have hfind : kres.find? (fun x => x.document_id = (weightEntry vw v).document_id) =
          none := by
        rw [List.find?_eq_none]
        intro x hx
        simp only [decide_eq_true_eq]
        intro hc
        have hc' : x.document_id = v.document_id := hc
        exact hnok (by rw [← hc']; exact List.mem_map_of_mem _ hx)
      rw [hfind]
      rfl
  · intro k hkin hnov
    have hcont : (vres.map (fun r => r.document_id)).contains k.document_id = false := by
      cases hc : (vres.map (fun r => r.document_id)).contains k.document_id
      · rfl
      · exact absurd (List.elem_iff.mp hc) hnov
    refine ⟨weightEntry kw k, ?_, rfl, rfl⟩
    rw [hchar]
    refine List.mem_append_right _ ?_
    refine List.mem_map_of_mem _ ?_
    rw [List.mem_filter]
    exact ⟨hkin, by rw [hcont]; rfl⟩
  · exact List.Pairwise.sublist (List.take_sublist _ _)
      (sortByFinalScoreDesc_sorted (hybridCombine vres kres vw kw))
  · exact List.length_take_le _ _

/-- Witness for C5: two vector results and two keyword results sharing one
document id. -/
theorem claim_C5_hybrid_scores_witness :
    (([⟨some "d1", 2, "vector"⟩, ⟨some "d2", 5, "vector"⟩] :
        List SearchResult).map (fun r => r.document_id)).Nodup ∧
    (([⟨some "d1", 1, "keyword"⟩, ⟨some "d3", 1, "keyword"⟩] :
        List SearchResult).map (fun r => r.document_id)).Nodup ∧
      ((∀ v ∈ ([⟨some "d1", 2, "vector"⟩, ⟨some "d2", 5, "vector"⟩] : List SearchResult),
        ∀ k ∈ ([⟨some "d1", 1, "keyword"⟩, ⟨some "d3", 1, "keyword"⟩] : List SearchResult),
          v.document_id = k.document_id →
          ∃ e ∈ hybridCombine [⟨some "d1", 2, "vector"⟩, ⟨some "d2", 5, "vector"⟩]
              [⟨some "d1", 1, "keyword"⟩, ⟨some "d3", 1, "keyword"⟩] 1 1,
            e.document_id = v.document_id ∧ e.final_score = v.score * 1 + k.score * 1) ∧
      (∀ v ∈ ([⟨some "d1", 2, "vector"⟩, ⟨some "d2", 5, "vector"⟩] : List SearchResult),
        v.document_id ∉ ([⟨some "d1", 1, "keyword"⟩, ⟨some "d3", 1, "keyword"⟩] :
            List SearchResult).map (fun r => r.document_id) →
        ∃ e ∈ hybridCombine [⟨some "d1", 2, "vector"⟩, ⟨some "d2", 5, "vector"⟩]
            [⟨some "d1", 1, "keyword"⟩, ⟨some "d3", 1, "keyword"⟩] 1 1,
          e.document_id = v.document_id ∧ e.final_score = v.score * 1) ∧
      (∀ k ∈ ([⟨some "d1", 1, "keyword"⟩, ⟨some "d3", 1, "keyword"⟩] : List SearchResult),
        k.document_id ∉ ([⟨some "d1", 2, "vector"⟩, ⟨some "d2", 5, "vector"⟩] :
            List SearchResult).map (fun r => r.document_id) →
        ∃ e ∈ hybridCombine [⟨some "d1", 2, "vector"⟩, ⟨some "d2", 5, "vector"⟩]
            [⟨some "d1", 1, "keyword"⟩, ⟨some "d3", 1, "keyword"⟩] 1 1,
          e.document_id = k.document_id ∧ e.final_score = k.score * 1) ∧
      hybrid_search [⟨some "d1", 2, "vector"⟩, ⟨some "d2", 5, "vector"⟩]
          [⟨some "d1", 1, "keyword"⟩, ⟨some "d3", 1, "keyword"⟩] 2 1 1 =
        (sortByFinalScoreDesc (hybridCombine
          [⟨some "d1", 2, "vector"⟩, ⟨some "d2", 5, "vector"⟩]
          [⟨some "d1", 1, "keyword"⟩, ⟨some "d3", 1, "keyword"⟩] 1 1)).take 2 ∧
      (hybrid_search [⟨some "d1", 2, "vector"⟩, ⟨some "d2", 5, "vector"⟩]
          [⟨some "d1", 1, "keyword"⟩, ⟨some "d3", 1, "keyword"⟩] 2 1 1).Sorted
        (fun a b => b.final_score ≤ a.final_score) ∧
      (hybrid_search [⟨some "d1", 2, "vector"⟩, ⟨some "d2", 5, "vector"⟩]
          [⟨some "d1", 1, "keyword"⟩, ⟨some "d3", 1, "keyword"⟩] 2 1 1).length ≤ 2) :=
  ⟨by decide, by decide,
    claim_C5_hybrid_scores
      [⟨some "d1", 2, "vector"⟩, ⟨some "d2", 5, "vector"⟩]
      [⟨some "d1", 1, "keyword"⟩, ⟨some "d3", 1, "keyword"⟩] 2 1 1
      (by decide) (by decide)⟩

end Crawler
